import Mathlib

/-!
Verification of the kakao_order ordering platform core: the order life
cycle (creation with PENDING status, owner-side accept), the client cart,
the phone-capture recovery flow, and the outbound webhook behaviour.

The definitions below are a shallow embedding of the TypeScript source:
  - saveOrder, increaseQuantity, decreaseQuantity, totalAmount and the
    order-submission action come from app/routes/$name.tsx (the copy of
    saveOrder in app/routes/customer/phone.tsx is textually identical);
  - the accept action comes from app/routes/owner.orders.tsx;
  - the phone-capture auto-submission flow comes from
    app/routes/customer/phone.tsx (useEffect + processOrder).

The external datastore is modelled as explicit lists of rows; outcomes of
the external inserts, updates and webhook fetches are supplied as boolean
or enumerated environment parameters.  Server-generated timestamps
(createdat columns, payload timestamps) are not modelled: no verified
property mentions them.
-/

/-- Order status enumeration, from database.types.ts
(kakao_order: PENDING | ACCEPT | CANCEL). -/
inductive Status where
  | PENDING
  | ACCEPT
  | CANCEL
deriving DecidableEq, Repr

/-- A client cart line, the OrderItem interface of $name.tsx:
{ id, name, price, quantity }. -/
structure OrderItemInput where
  id : String
  name : String
  price : Int
  quantity : Int
deriving DecidableEq, Repr

/-- A persisted row of the order table. -/
structure OrderRow where
  order_id : Nat
  phoneNumber : String
  totalAmount : Int
  status : Status
  profile_id : String
deriving DecidableEq, Repr

/-- A persisted row of the orderitem table. -/
structure OrderItemRow where
  id : Nat
  orderId : Nat
  menuItemId : String
  quantity : Int
  price : Int
deriving DecidableEq, Repr

/-- A persisted row of the menuItem table (fields the core reads). -/
structure MenuItemRow where
  id : String
  profile_id : String
  name : String
  price : Int
  isActive : Bool
deriving DecidableEq, Repr

/-- A persisted row of the profiles table (fields the core reads). -/
structure ProfileRow where
  profile_id : String
  name : String
  storename : Option String
  storenumber : Option String
  email : Option String
  role : String
  customernumber : Option String
deriving DecidableEq, Repr

/-- The datastore state: the four relations plus counters standing for
the server-side id generators of order and orderitem rows. -/
structure DB where
  profiles : List ProfileRow
  menuItems : List MenuItemRow
  orders : List OrderRow
  orderitems : List OrderItemRow
  nextOrderId : Nat
  nextOrderItemId : Nat
deriving DecidableEq, Repr

/-- Failure cases of saveOrder, one per fallible insert statement. -/
inductive SaveError where
  | orderInsertFailed
  | itemInsertFailed
deriving DecidableEq, Repr

/-- saveOrder from $name.tsx lines 92-134 (identical copy in
customer/phone.tsx lines 26-68): first insert one order row with status
PENDING and read back the generated order_id; if that insert fails,
throw with the datastore untouched.  Then insert one orderitem row per
cart line, each referencing the new order_id; if that insert fails,
throw WITHOUT deleting the already inserted order row.  The two boolean
parameters say whether the external datastore accepts each insert. -/
def saveOrder (orderInsertOk itemInsertOk : Bool)
    (orderItems : List OrderItemInput) (phoneNumber : String)
    (totalAmount : Int) (profile_id : String) (db : DB) :
    Except SaveError Nat × DB :=
  if !orderInsertOk then
    (Except.error SaveError.orderInsertFailed, db)
  else
    let oid := db.nextOrderId
    let row : OrderRow :=
      { order_id := oid, phoneNumber := phoneNumber,
        totalAmount := totalAmount, status := Status.PENDING,
        profile_id := profile_id }
    let db1 : DB :=
      { db with orders := db.orders ++ [row],
                nextOrderId := db.nextOrderId + 1 }
    if !itemInsertOk then
      (Except.error SaveError.itemInsertFailed, db1)
    else
      let rows : List OrderItemRow :=
        orderItems.enum.map (fun p =>
          { id := db1.nextOrderItemId + p.1, orderId := oid,
            menuItemId := p.2.id, quantity := p.2.quantity,
            price := p.2.price })
      (Except.ok oid,
       { db1 with orderitems := db1.orderitems ++ rows,
                  nextOrderItemId := db1.nextOrderItemId + rows.length })

/-- increaseQuantity from $name.tsx lines 418-439: if a line with the
id of the given menu item is already present, add one to the quantity of
every such line; otherwise append a new line with quantity 1, capturing
the price of the catalog entry at this moment. -/
def increaseQuantity (menuItem : MenuItemRow)
    (prev : List OrderItemInput) : List OrderItemInput :=
  match prev.find? (fun it => it.id == menuItem.id) with
  | some _ =>
      prev.map (fun it =>
        if it.id == menuItem.id then
          { it with quantity := it.quantity + 1 }
        else it)
  | none =>
      prev ++ [{ id := menuItem.id, name := menuItem.name,
                 price := menuItem.price, quantity := 1 }]

/-- decreaseQuantity from $name.tsx lines 441-454: if a line with the
given id exists and its quantity is above 1, subtract one; otherwise
(quantity 1, or no such line) remove every line with that id. -/
def decreaseQuantity (menuItem : MenuItemRow)
    (prev : List OrderItemInput) : List OrderItemInput :=
  match prev.find? (fun it => it.id == menuItem.id) with
  | some existingItem =>
      if existingItem.quantity > 1 then
        prev.map (fun it =>
          if it.id == menuItem.id then
            { it with quantity := it.quantity - 1 }
          else it)
      else
        prev.filter (fun it => !(it.id == menuItem.id))
  | none =>
      prev.filter (fun it => !(it.id == menuItem.id))

/-- totalAmount from $name.tsx lines 461-464: the client-side total,
recomputed as reduce (sum + price * quantity) over the cart lines. -/
def totalAmount (orderItems : List OrderItemInput) : Int :=
  orderItems.foldl (fun sum it => sum + it.price * it.quantity) 0

/-- A cart mutation: the two operations exposed by the order page. -/
inductive CartOp where
  | inc (m : MenuItemRow)
  | dec (m : MenuItemRow)

/-- Apply one cart mutation. -/
def applyCartOp (op : CartOp) (cart : List OrderItemInput) :
    List OrderItemInput :=
  match op with
  | CartOp.inc m => increaseQuantity m cart
  | CartOp.dec m => decreaseQuantity m cart

/-- Apply a sequence of cart mutations; the component initialises the
cart with useState of the empty list. -/
def runCart (ops : List CartOp) (cart : List OrderItemInput) :
    List OrderItemInput :=
  ops.foldl (fun c op => applyCartOp op c) cart

/-- Result of JavaScript a || b where a is a nullable string and b is a
string: b is used when a is null or the empty string. -/
def strOrElse (a : Option String) (b : String) : String :=
  match a with
  | some s => if s = "" then b else s
  | none => b

/-- Outcome of one outbound webhook fetch: the HTTP response is ok, the
HTTP response has an error code, or the fetch call itself rejects
(network failure, which in JavaScript raises an exception). -/
inductive FetchOutcome where
  | fetchOk
  | fetchHttpError
  | fetchThrow
deriving DecidableEq, Repr

/-- Environment of the order-submission action in $name.tsx: the
authenticated caller (id), the outcomes of the two datastore inserts and
of the webhook fetch, and the configured webhook URL
(process.env.N8N_WEBHOOK_URL_STORE). -/
structure CreateEnv where
  user : Option String
  orderInsertOk : Bool
  itemInsertOk : Bool
  hookUrl : Option String
  fetchOutcome : FetchOutcome
deriving DecidableEq, Repr

/-- The form fields the order-submission branch reads: the serialized
cart lines, the client-computed total, the phone number, and the
automatic-order flag set by the phone-capture recovery flow. -/
structure CreateForm where
  orderItems : List OrderItemInput
  totalAmount : Int
  phoneNumber : String
  autoOrder : Bool
deriving DecidableEq, Repr

/-- Result of the order-submission action: the requiresAuth response,
the success response carrying the new order id, or the generic failure
response produced by the surrounding catch block. -/
inductive CreateResult where
  | requiresAuth
  | successResult (orderId : Nat)
  | failureResult
deriving DecidableEq, Repr

/-- The order.created webhook payload of $name.tsx lines 240-259
(server timestamps omitted, see the file comment). -/
structure CreatePayload where
  pageName : String
  storeName : String
  profileId : String
  orderId : Nat
  orderTotalAmount : Int
  customerPhone : String
  items : List OrderItemInput
  status : Status
  notifyPhone : Option String
deriving DecidableEq, Repr

/-- Everything the order-submission action produces: the response, the
final datastore state, and the list of webhook POST attempts. -/
structure CreateOutcome where
  result : CreateResult
  db : DB
  payloads : List CreatePayload
deriving DecidableEq, Repr

/-- The order-submission branch of the action in $name.tsx lines
137-298 (the logout and updatePhoneNumber branches touch no order data).
Control flow: unauthenticated caller gets the requiresAuth response; for
an automatic order with a blank phone number the phone is read from the
caller profile customernumber; the store profile is looked up by page
name and a missing profile (or falsy profile_id) throws into the catch
block; saveOrder runs (a failure there also lands in the catch block,
keeping whatever saveOrder already persisted); then the webhook is fired
inside its own try/catch, so every fetch outcome is swallowed and the
success response is returned whenever saveOrder succeeded.  The phone
resolution step ($name.tsx lines 202-218) is factored out here: for an
automatic order whose posted phone number is blank, the phone is read
from the caller profile customernumber when that is set and nonempty. -/
def resolvePhoneNumber (form : CreateForm) (uid : String) (db : DB) :
    String :=
  if form.autoOrder && form.phoneNumber.trim == "" then
    match (db.profiles.find? (fun p => p.profile_id == uid)).bind
        (fun p => p.customernumber) with
    | some c => if c = "" then form.phoneNumber else c
    | none => form.phoneNumber
  else form.phoneNumber

/-- The main body of the order-submission branch, continuing after
resolvePhoneNumber (see its doc comment for the source mapping). -/
def createAction (env : CreateEnv) (form : CreateForm) (name : String)
    (db : DB) : CreateOutcome :=
  match env.user with
  | none => { result := CreateResult.requiresAuth, db := db, payloads := [] }
  | some uid =>
    let phoneNumber := resolvePhoneNumber form uid db
    match db.profiles.find? (fun p => p.name == name) with
    | none => { result := CreateResult.failureResult, db := db, payloads := [] }
    | some profile =>
      if profile.profile_id = "" then
        { result := CreateResult.failureResult, db := db, payloads := [] }
      else
        match saveOrder env.orderInsertOk env.itemInsertOk form.orderItems
            phoneNumber form.totalAmount profile.profile_id db with
        | (Except.error _, db1) =>
          { result := CreateResult.failureResult, db := db1, payloads := [] }
        | (Except.ok orderId, db1) =>
          let payload : CreatePayload :=
            { pageName := name,
              storeName := (profile.storename).getD name,
              profileId := profile.profile_id,
              orderId := orderId,
              orderTotalAmount := form.totalAmount,
              customerPhone := phoneNumber,
              items := form.orderItems,
              status := Status.PENDING,
              notifyPhone := profile.storenumber }
          match env.hookUrl with
          | none =>
            { result := CreateResult.successResult orderId, db := db1,
              payloads := [] }
          | some _ =>
            { result := CreateResult.successResult orderId, db := db1,
              payloads := [payload] }

/-- Environment of the accept action in owner.orders.tsx: the
authenticated caller and its auth email, whether the datastore accepts
the update statement, the configured webhook URL
(process.env.N8N_WEBHOOK_URL), and the webhook fetch outcome. -/
structure AcceptEnv where
  user : Option String
  userEmail : Option String
  updateOk : Bool
  hookUrl : Option String
  fetchOutcome : FetchOutcome
deriving DecidableEq, Repr

/-- Result of the accept action: redirect to /login (unauthenticated),
redirect to /owner/orders (normal completion, also for a missing
orderId field), or an uncaught exception leaving the action (the thrown
update error, or the webhook fetch rejection, which the accept action
does not wrap in try/catch). -/
inductive AcceptResult where
  | redirectLogin
  | redirectOrders
  | thrownUpdateError
  | thrownFetchError
deriving DecidableEq, Repr

/-- One entry of the items array of the order-accepted payload. -/
structure AcceptPayloadItem where
  id : Nat
  menuItemId : String
  menuName : String
  quantity : Int
  price : Int
  subtotal : Int
deriving DecidableEq, Repr

/-- The order-accepted webhook payload of owner.orders.tsx lines
100-124 (server timestamps omitted). -/
structure AcceptPayload where
  orderId : Nat
  status : Status
  orderPhoneNumber : Option String
  orderTotalAmount : Option Int
  items : List AcceptPayloadItem
  storeId : String
  storeStorename : Option String
  storeDomain : Option String
  storeEmail : Option String
  storeStorenumber : Option String
deriving DecidableEq, Repr

/-- Everything the accept action produces: the result, the final
datastore state, the number of rows matched by the update statement
(observable in the datastore, not read by the code), and the webhook
POST attempts. -/
structure AcceptOutcome where
  result : AcceptResult
  db : DB
  changed : Nat
  payloads : List AcceptPayload
deriving DecidableEq, Repr

/-- The update statement of the accept action (owner.orders.tsx lines
70-74): set status to ACCEPT on the rows matching BOTH the order id and
the caller profile id.  Returns the new state and how many rows
matched. -/
def updateAccept (db : DB) (orderId : Nat) (callerId : String) :
    DB × Nat :=
  let changed := db.orders.countP
    (fun o => o.order_id == orderId && o.profile_id == callerId)
  let orders := db.orders.map (fun o =>
    if o.order_id == orderId && o.profile_id == callerId then
      { o with status := Status.ACCEPT }
    else o)
  ({ db with orders := orders }, changed)

/-- The joined menu name used in the accept payload: the name of the
referenced menuItem row, with the JavaScript || fallback to a hash-tag
of the menuItemId when the join is null or the name is empty. -/
def menuNameOf (menuItems : List MenuItemRow) (menuItemId : String) :
    String :=
  match menuItems.find? (fun m => m.id == menuItemId) with
  | some m => if m.name = "" then "#" ++ menuItemId else m.name
  | none => "#" ++ menuItemId

/-- The items array of the accept payload: the orderitem rows of the
given order id (a re-read filtered by order id alone), each joined with
its menu name and a computed subtotal. -/
def acceptItems (db : DB) (orderId : Nat) : List AcceptPayloadItem :=
  (db.orderitems.filter (fun r => r.orderId == orderId)).map (fun it =>
    { id := it.id, menuItemId := it.menuItemId,
      menuName := menuNameOf db.menuItems it.menuItemId,
      quantity := it.quantity, price := it.price,
      subtotal := it.price * it.quantity })

/-- The accept branch of the action in owner.orders.tsx lines 60-135.
Control flow: a missing orderId field redirects to /owner/orders; an
unauthenticated caller is redirected to /login; the status update runs
filtered on both order id and caller profile id, and a datastore error
there is thrown; the payload is then assembled from re-reads (the order
row by order id alone with maybeSingle, its orderitem rows by order id,
the caller profile by the caller id) and, when a webhook URL is
configured, the payload is POSTed by a fetch that is NOT wrapped in
try/catch, so a fetch rejection propagates out of the action; otherwise
the action redirects to /owner/orders. -/
def acceptAction (env : AcceptEnv) (orderIdField : Option Nat)
    (db : DB) : AcceptOutcome :=
  match orderIdField with
  | none =>
    { result := AcceptResult.redirectOrders, db := db, changed := 0,
      payloads := [] }
  | some orderId =>
    match env.user with
    | none =>
      { result := AcceptResult.redirectLogin, db := db, changed := 0,
        payloads := [] }
    | some uid =>
      if !env.updateOk then
        { result := AcceptResult.thrownUpdateError, db := db,
          changed := 0, payloads := [] }
      else
        let upd := updateAccept db orderId uid
        let db1 := upd.1
        let order := db1.orders.find? (fun o => o.order_id == orderId)
        let profile := db1.profiles.find? (fun p => p.profile_id == uid)
        let payload : AcceptPayload :=
          { orderId := orderId,
            status := Status.ACCEPT,
            orderPhoneNumber := order.map (fun o => o.phoneNumber),
            orderTotalAmount := order.map (fun o => o.totalAmount),
            items := acceptItems db1 orderId,
            storeId := (order.map (fun o => o.profile_id)).getD uid,
            storeStorename := profile.bind (fun p => p.storename),
            storeDomain := profile.map (fun p => p.name),
            storeEmail :=
              match profile.bind (fun p => p.email) with
              | some e => some e
              | none => env.userEmail,
            storeStorenumber := profile.bind (fun p => p.storenumber) }
        match env.hookUrl with
        | none =>
          { result := AcceptResult.redirectOrders, db := db1,
            changed := upd.2, payloads := [] }
        | some _ =>
          match env.fetchOutcome with
          | FetchOutcome.fetchThrow =>
            { result := AcceptResult.thrownFetchError, db := db1,
              changed := upd.2, payloads := [payload] }
          | _ =>
            { result := AcceptResult.redirectOrders, db := db1,
              changed := upd.2, payloads := [payload] }

/-- The PendingOrder draft staged in sessionStorage under the key
pendingOrder (interface PendingOrder of customer/phone.tsx). -/
structure PendingOrder where
  orderItems : List OrderItemInput
  totalAmount : Int
  storeName : String
  phoneNumber : Option String
deriving DecidableEq, Repr

/-- The form posted by processOrder to the store page action. -/
structure AutoSubmitRequest where
  orderItems : List OrderItemInput
  totalAmount : Int
  phoneNumber : String
  autoOrder : Bool
  storeName : String
deriving DecidableEq, Repr

/-- Outcome of the POST issued by processOrder: the HTTP response is
not ok (processOrder throws into its catch), the JSON result has
success false, the JSON result has success true with an order id, or
the fetch itself rejects. -/
inductive SubmitOutcome where
  | submitHttpFail
  | submitResultFail
  | submitSuccess (orderId : Nat)
  | submitFetchThrow
deriving DecidableEq, Repr

/-- Where the phone-capture page navigates after the flow. -/
inductive PhoneNav where
  | home
  | orderSuccessPage (orderId : Nat)
  | stay
deriving DecidableEq, Repr

/-- Everything the phoneSaved client flow produces: the staging slot
after the flow, the navigation, and the request submitted (none when no
submission was attempted). -/
structure PhoneFlowOutcome where
  storage : Option PendingOrder
  nav : PhoneNav
  submitted : Option AutoSubmitRequest
deriving DecidableEq, Repr

/-- The form built by processOrder (customer/phone.tsx lines 213-220):
the draft items and total, the phone number with the JavaScript ||
fallback from the draft field to the component state to the empty
string, the autoOrder flag set to true, and the draft store name as the
POST target. -/
def mkAutoSubmitRequest (po : PendingOrder) (statePhone : String) :
    AutoSubmitRequest :=
  { orderItems := po.orderItems,
    totalAmount := po.totalAmount,
    phoneNumber := strOrElse po.phoneNumber statePhone,
    autoOrder := true,
    storeName := po.storeName }

/-- The client flow run by PhoneInputPage when the URL carries
phoneSaved=true (customer/phone.tsx lines 185-205 and processOrder,
lines 207-247): with no staged draft, navigate home without submitting
anything; with a staged draft, POST it via mkAutoSubmitRequest; on a
success result delete the staged draft and navigate to the
order-success page; on any failure (HTTP error, success false result,
or fetch rejection, all caught) keep the staged draft and stay on the
page showing an error. -/
def phoneSavedFlow (storage : Option PendingOrder) (statePhone : String)
    (submit : AutoSubmitRequest → SubmitOutcome) : PhoneFlowOutcome :=
  match storage with
  | none =>
    { storage := none, nav := PhoneNav.home, submitted := none }
  | some po =>
    let req := mkAutoSubmitRequest po statePhone
    match submit req with
    | SubmitOutcome.submitSuccess orderId =>
      { storage := none, nav := PhoneNav.orderSuccessPage orderId,
        submitted := some req }
    | _ =>
      { storage := some po, nav := PhoneNav.stay, submitted := some req }

/-- One datastore-mutating operation of the system that touches the
order or orderitem tables.  A grep over the repository shows exactly two
code paths write these tables: saveOrder (reached from the
order-submission action, modelled by createAction) and the status update
of the accept action (modelled by acceptAction); every other route
writes only profiles or menuItem rows. -/
inductive SysOp where
  | create (env : CreateEnv) (form : CreateForm) (name : String)
  | accept (env : AcceptEnv) (orderIdField : Option Nat)

/-- The datastore after one operation. -/
def sysStep (op : SysOp) (db : DB) : DB :=
  match op with
  | SysOp.create env form name => (createAction env form name db).db
  | SysOp.accept env orderIdField => (acceptAction env orderIdField db).db

/-- The datastore after a sequence of operations. -/
def sysRun (ops : List SysOp) (db : DB) : DB :=
  ops.foldl (fun d op => sysStep op d) db

/-- Invariant: every order row carrying the given order id has status
ACCEPT, and the id generator is already past that id (true of any state
in which a row with that id exists and the generator is ahead of all
existing rows). -/
def acceptOnlyStatus (orderId : Nat) (db : DB) : Prop :=
  (∀ o ∈ db.orders, o.order_id = orderId → o.status = Status.ACCEPT) ∧
    orderId < db.nextOrderId

/-- Invariant: no order row has status CANCEL. -/
def noCancel (db : DB) : Prop :=
  ∀ o ∈ db.orders, o.status ≠ Status.CANCEL

/-! General list helpers used by the proofs below. -/

theorem totalAmount_foldl_eq (l : List OrderItemInput) (a : Int) :
    l.foldl (fun sum it => sum + it.price * it.quantity) a
      = a + (l.map (fun it => it.price * it.quantity)).sum := by
  induction l generalizing a with
  | nil => simp
  | cons x xs ih => simp [ih, add_assoc]

/-- The client total is the sum of the per-line products. -/
theorem totalAmount_eq_sum (l : List OrderItemInput) :
    totalAmount l = (l.map (fun it => it.price * it.quantity)).sum := by
  simpa using totalAmount_foldl_eq l 0

theorem enumFrom_map_snd_comp {α β : Type} (f : α → β) (n : Nat)
    (l : List α) :
    (List.enumFrom n l).map (fun p => f p.2) = l.map f := by
  induction l generalizing n with
  | nil => rfl
  | cons x xs ih => simp [List.enumFrom, ih]

theorem enum_map_snd_comp {α β : Type} (f : α → β) (l : List α) :
    l.enum.map (fun p => f p.2) = l.map f := by
  simpa [List.enum] using enumFrom_map_snd_comp f 0 l

theorem list_map_eq_self {α : Type} (f : α → α) (l : List α)
    (h : ∀ x ∈ l, f x = x) : l.map f = l := by
  induction l with
  | nil => rfl
  | cons x xs ih =>
    simp only [List.map_cons, h x (List.mem_cons_self x xs),
      ih (fun y hy => h y (List.mem_cons_of_mem x hy))]

theorem list_find?_unique {α : Type} (p : α → Bool) (l : List α) (o : α)
    (ho : o ∈ l) (hp : p o = true)
    (hu : ∀ x ∈ l, p x = true → x = o) : l.find? p = some o := by
  induction l with
  | nil => cases ho
  | cons x xs ih =>
    by_cases hx : p x = true
    · have hxo : x = o := hu x (List.mem_cons_self x xs) hx
      simp [List.find?_cons, hx, hxo, hp]
    · have hx2 : p x = false := by
        cases hpx : p x
        · rfl
        · exact absurd hpx hx
      have hmem : o ∈ xs := by
        rcases List.mem_cons.mp ho with h | h
        · subst h; exact absurd hp hx
        · exact h
      simp only [List.find?_cons, hx2]
      exact ih hmem (fun y hy hyp => hu y (List.mem_cons_of_mem x hy) hyp)

/-- In a cart whose ids are pairwise distinct, two members with the same
id are the same line. -/
theorem cart_eq_of_nodup_ids (cart : List OrderItemInput)
    (h : (cart.map (fun it => it.id)).Nodup) :
    ∀ a ∈ cart, ∀ b ∈ cart, a.id = b.id → a = b := by
  induction cart with
  | nil => intro a ha; cases ha
  | cons c tl ih =>
    rw [List.map_cons, List.nodup_cons] at h
    intro a ha b hb hid
    rcases List.mem_cons.mp ha with rfl | ha2
    · rcases List.mem_cons.mp hb with rfl | hb2
      · rfl
      · exact absurd (by rw [hid]; exact List.mem_map_of_mem _ hb2) h.1
    · rcases List.mem_cons.mp hb with rfl | hb2
      · exact absurd (by rw [← hid]; exact List.mem_map_of_mem _ ha2) h.1
      · exact ih h.2 a ha2 b hb2 hid

/-! Cart wellformedness: every line has quantity at least 1 and line ids
are pairwise distinct.  This holds of the initial empty cart and is kept
by both mutations. -/

def cartWF (cart : List OrderItemInput) : Prop :=
  (∀ it ∈ cart, 1 ≤ it.quantity) ∧ (cart.map (fun it => it.id)).Nodup

theorem cartWF_nil : cartWF [] := by
  constructor
  · intro it h; cases h
  · simp

theorem cartWF_filter (p : OrderItemInput → Bool)
    (cart : List OrderItemInput) (h : cartWF cart) :
    cartWF (cart.filter p) := by
  obtain ⟨hq, hn⟩ := h
  refine ⟨fun it hit => hq it (List.mem_of_mem_filter hit), ?_⟩
  exact List.Nodup.sublist (List.Sublist.map _ (List.filter_sublist cart)) hn

theorem increaseQuantity_wf (m : MenuItemRow)
    (cart : List OrderItemInput) (h : cartWF cart) :
    cartWF (increaseQuantity m cart) := by
  obtain ⟨hq, hn⟩ := h
  unfold increaseQuantity
  cases hf : cart.find? (fun it => it.id == m.id) with
  | some ex =>
    refine ⟨?_, ?_⟩
    · intro it hit
      rw [List.mem_map] at hit
      obtain ⟨y, hy, rfl⟩ := hit
      by_cases hc : (y.id == m.id) = true
      · rw [if_pos hc]
        have := hq y hy
        show 1 ≤ y.quantity + 1
        omega
      · rw [if_neg hc]
        exact hq y hy
    · rw [List.map_map]
      have hmap : cart.map ((fun it => it.id) ∘ fun it =>
          if it.id == m.id then { it with quantity := it.quantity + 1 }
          else it) = cart.map (fun it => it.id) := by
        apply List.map_congr_left
        intro y hy
        by_cases hc : (y.id == m.id) = true
        · simp [Function.comp, hc]
        · simp [Function.comp, hc]
      rw [hmap]
      exact hn
  | none =>
    have hnone := List.find?_eq_none.mp hf
    refine ⟨?_, ?_⟩
    · intro it hit
      rcases List.mem_append.mp hit with h1 | h1
      · exact hq it h1
      · rcases List.mem_singleton.mp h1 with rfl
        exact le_refl _
    · rw [List.map_append]
      simp only [List.map_cons, List.map_nil]
      rw [List.nodup_append]
      refine ⟨hn, List.nodup_singleton _, ?_⟩
      intro x hx hx2
      rw [List.mem_singleton] at hx2
      rw [List.mem_map] at hx
      obtain ⟨y, hy, rfl⟩ := hx
      exact (hnone y hy) (beq_iff_eq.mpr hx2)

theorem decreaseQuantity_wf (m : MenuItemRow)
    (cart : List OrderItemInput) (h : cartWF cart) :
    cartWF (decreaseQuantity m cart) := by
  obtain ⟨hq, hn⟩ := h
  unfold decreaseQuantity
  split
  next ex hf =>
    split
    next hgt =>
      refine ⟨?_, ?_⟩
      · intro it hit
        rw [List.mem_map] at hit
        obtain ⟨y, hy, rfl⟩ := hit
        by_cases hc : (y.id == m.id) = true
        · rw [if_pos hc]
          have hex : ex ∈ cart := List.mem_of_find?_eq_some hf
          have hexb := List.find?_some hf
          have hexid : ex.id = m.id := beq_iff_eq.mp hexb
          have hyex : y = ex :=
            cart_eq_of_nodup_ids cart hn y hy ex hex
              (by rw [beq_iff_eq] at hc; rw [hc, hexid])
          rw [hyex]
          show 1 ≤ ex.quantity - 1
          omega
        · rw [if_neg hc]
          exact hq y hy
      · rw [List.map_map]
        have hmap : cart.map ((fun it => it.id) ∘ fun it =>
            if it.id == m.id then { it with quantity := it.quantity - 1 }
            else it) = cart.map (fun it => it.id) := by
          apply List.map_congr_left
          intro y hy
          by_cases hc : (y.id == m.id) = true
          · simp [Function.comp, hc]
          · simp [Function.comp, hc]
        rw [hmap]
        exact hn
    next hgt =>
      exact cartWF_filter _ cart ⟨hq, hn⟩
  next hf =>
    exact cartWF_filter _ cart ⟨hq, hn⟩

theorem applyCartOp_wf (op : CartOp) (cart : List OrderItemInput)
    (h : cartWF cart) : cartWF (applyCartOp op cart) := by
  cases op with
  | inc m => exact increaseQuantity_wf m cart h
  | dec m => exact decreaseQuantity_wf m cart h

theorem runCart_wf (ops : List CartOp) (cart : List OrderItemInput)
    (h : cartWF cart) : cartWF (runCart ops cart) := by
  induction ops generalizing cart with
  | nil => exact h
  | cons op rest ih => exact ih _ (applyCartOp_wf op cart h)

/-- C1: for every order submission, saveOrder inserts the order row with
status PENDING and obtains the generated order id before any orderitem
row is inserted; each orderitem row references that order id; and when
the orderitem insert fails, saveOrder throws without deleting or rolling
back the already inserted order row (the order row remains persisted and
no orderitem row was added). -/
theorem saveOrder_pending_first_no_rollback
    (items : List OrderItemInput) (ph : String) (t : Int) (pid : String)
    (db : DB) :
    (saveOrder true false items ph t pid db).1
        = Except.error SaveError.itemInsertFailed ∧
    (saveOrder true false items ph t pid db).2.orders
        = db.orders ++ [{ order_id := db.nextOrderId, phoneNumber := ph,
                           totalAmount := t, status := Status.PENDING,
                           profile_id := pid }] ∧
    (saveOrder true false items ph t pid db).2.orderitems
        = db.orderitems ∧
    (saveOrder true true items ph t pid db).1
        = Except.ok db.nextOrderId ∧
    (saveOrder true true items ph t pid db).2.orders
        = db.orders ++ [{ order_id := db.nextOrderId, phoneNumber := ph,
                           totalAmount := t, status := Status.PENDING,
                           profile_id := pid }] ∧
    ∃ rows, (saveOrder true true items ph t pid db).2.orderitems
        = db.orderitems ++ rows ∧
      ∀ r ∈ rows, r.orderId = db.nextOrderId := by
  refine ⟨rfl, rfl, rfl, rfl, rfl, _, rfl, ?_⟩
  intro r hr
  rw [List.mem_map] at hr
  obtain ⟨p, hp, rfl⟩ := hr
  rfl

/-- C7: every cart reachable from the empty cart by increase and
decrease operations has only lines of quantity at least 1; a decrease on
a line of quantity at most 1 (or on an absent item) removes the line
entirely; and an increase on an absent item appends it with quantity
exactly 1. -/
theorem cart_quantity_floor (ops : List CartOp) (m1 m2 : MenuItemRow)
    (cart1 cart2 : List OrderItemInput)
    (h1 : ∀ ex ∈ cart1, ex.id = m1.id → ex.quantity ≤ 1)
    (h2 : cart2.find? (fun it => it.id == m2.id) = none) :
    (∀ it ∈ runCart ops [], 1 ≤ it.quantity) ∧
    (∀ it ∈ decreaseQuantity m1 cart1, it.id ≠ m1.id) ∧
    increaseQuantity m2 cart2
      = cart2 ++ [{ id := m2.id, name := m2.name, price := m2.price,
                      quantity := 1 }] := by
  refine ⟨(runCart_wf ops [] cartWF_nil).1, ?_, ?_⟩
  · intro it hit
    have key : decreaseQuantity m1 cart1
        = cart1.filter (fun it => !(it.id == m1.id)) := by
      unfold decreaseQuantity
      split
      next ex hf =>
        have hexb := List.find?_some hf
        have hexid : ex.id = m1.id := beq_iff_eq.mp hexb
        have hle := h1 ex (List.mem_of_find?_eq_some hf) hexid
        rw [if_neg (by omega)]
      next hf => rfl
    rw [key] at hit
    have hb := List.of_mem_filter hit
    simp only [Bool.not_eq_true'] at hb
    intro hcontra
    rw [hcontra] at hb
    simp at hb
  · unfold increaseQuantity
    rw [h2]

/-- Concrete menu items used by witness instantiations. -/
def mBurger : MenuItemRow :=
  { id := "burger", profile_id := "S", name := "Burger", price := 8000,
    isActive := true }

/-- Second concrete menu item used by witness instantiations. -/
def mCoke : MenuItemRow :=
  { id := "coke", profile_id := "S", name := "Coke", price := 2000,
    isActive := true }

/-- Witness for C7 at a concrete cart history. -/
theorem cart_quantity_floor_witness :
    (∀ it ∈ runCart [CartOp.inc mBurger, CartOp.inc mCoke,
        CartOp.inc mBurger, CartOp.dec mCoke] [], 1 ≤ it.quantity) ∧
    (∀ it ∈ decreaseQuantity mBurger
        [{ id := "burger", name := "Burger", price := 8000,
             quantity := 1 }], it.id ≠ mBurger.id) ∧
    increaseQuantity mCoke []
      = [] ++ [{ id := mCoke.id, name := mCoke.name, price := mCoke.price,
                   quantity := 1 }] :=
  cart_quantity_floor _ mBurger mCoke _ [] (by decide) (by decide)

/-- The orderitem rows inserted by a successful saveOrder call: one per
cart line, referencing the generated order id, with sequential ids. -/
def insertedItemRows (items : List OrderItemInput) (oid base : Nat) :
    List OrderItemRow :=
  items.enum.map (fun p =>
    { id := base + p.1, orderId := oid, menuItemId := p.2.id,
      quantity := p.2.quantity, price := p.2.price })

/-- Evaluation of saveOrder when both inserts succeed. -/
theorem saveOrder_tt (items : List OrderItemInput) (ph : String)
    (t : Int) (pid : String) (db : DB) :
    saveOrder true true items ph t pid db
      = (Except.ok db.nextOrderId,
         { db with
             orders := db.orders ++
               [{ order_id := db.nextOrderId, phoneNumber := ph,
                  totalAmount := t, status := Status.PENDING,
                  profile_id := pid }],
             orderitems := db.orderitems ++
               insertedItemRows items db.nextOrderId db.nextOrderItemId,
             nextOrderId := db.nextOrderId + 1,
             nextOrderItemId := db.nextOrderItemId +
               (insertedItemRows items db.nextOrderId
                 db.nextOrderItemId).length }) := rfl

/-- C5: for every order created through the checkout flow (an
authenticated submission against an existing store profile whose two
inserts succeed, posting the client-recomputed total), the persisted
order row carries totalAmount equal to the sum of price times quantity
over exactly the orderitem rows persisted for that order. -/
theorem order_total_consistency
    (env : CreateEnv) (form : CreateForm) (nm uid : String)
    (profile : ProfileRow) (db : DB)
    (hu : env.user = some uid)
    (hp : db.profiles.find? (fun p => p.name == nm) = some profile)
    (hpid : profile.profile_id ≠ "")
    (ho : env.orderInsertOk = true)
    (hi : env.itemInsertOk = true)
    (htot : form.totalAmount = totalAmount form.orderItems)
    (horders : ∀ o ∈ db.orders, o.order_id < db.nextOrderId)
    (hitems : ∀ r ∈ db.orderitems, r.orderId < db.nextOrderId) :
    (createAction env form nm db).result
        = CreateResult.successResult db.nextOrderId ∧
    ∃ row,
      (createAction env form nm db).db.orders.find?
          (fun o => o.order_id == db.nextOrderId) = some row ∧
      row.totalAmount
        = (((createAction env form nm db).db.orderitems.filter
              (fun r => r.orderId == db.nextOrderId)).map
              (fun r => r.price * r.quantity)).sum := by
  have hfindold :
      db.orders.find? (fun o => o.order_id == db.nextOrderId) = none := by
    rw [List.find?_eq_none]
    intro o hmem
    have := horders o hmem
    simp only [beq_iff_eq]
    omega
  have hfilterold :
      db.orderitems.filter (fun r => r.orderId == db.nextOrderId) = [] := by
    rw [List.filter_eq_nil_iff]
    intro r hmem
    have := hitems r hmem
    simp only [beq_iff_eq]
    omega
  have hfilternew : ∀ oid base,
      (insertedItemRows form.orderItems oid base).filter
          (fun r => r.orderId == oid)
        = insertedItemRows form.orderItems oid base := by
    intro oid base
    rw [List.filter_eq_self]
    intro r hmem
    rw [insertedItemRows, List.mem_map] at hmem
    obtain ⟨p, hp2, rfl⟩ := hmem
    simp
  have hsum : ∀ oid base,
      ((insertedItemRows form.orderItems oid base).map
          (fun r => r.price * r.quantity)).sum
        = totalAmount form.orderItems := by
    intro oid base
    rw [insertedItemRows, List.map_map]
    have hcomp : form.orderItems.enum.map ((fun r : OrderItemRow =>
        r.price * r.quantity) ∘ (fun p =>
        ({ id := base + p.1, orderId := oid, menuItemId := p.2.id,
           quantity := p.2.quantity, price := p.2.price } : OrderItemRow)))
        = form.orderItems.enum.map (fun p => p.2.price * p.2.quantity) :=
      List.map_congr_left (fun a _ => rfl)
    rw [hcomp, enum_map_snd_comp (fun it => it.price * it.quantity)
      form.orderItems, totalAmount_eq_sum]
  unfold createAction
  simp only [hu, hp, ho, hi]
  rw [if_neg hpid, saveOrder_tt]
  simp only []
  cases env.hookUrl with
  | none =>
    simp only []
    refine ⟨trivial,
      { order_id := db.nextOrderId,
        phoneNumber := resolvePhoneNumber form uid db,
        totalAmount := form.totalAmount, status := Status.PENDING,
        profile_id := profile.profile_id }, ?_, ?_⟩
    · rw [List.find?_append, hfindold]
      simp [List.find?_cons]
    · show form.totalAmount = _
      rw [List.filter_append, hfilterold, hfilternew, List.nil_append,
        hsum, htot]
  | some u =>
    simp only []
    refine ⟨trivial,
      { order_id := db.nextOrderId,
        phoneNumber := resolvePhoneNumber form uid db,
        totalAmount := form.totalAmount, status := Status.PENDING,
        profile_id := profile.profile_id }, ?_, ?_⟩
    · rw [List.find?_append, hfindold]
      simp [List.find?_cons]
    · show form.totalAmount = _
      rw [List.filter_append, hfilterold, hfilternew, List.nil_append,
        hsum, htot]

/-- Concrete store profile used by witness instantiations. -/
def storeProfile : ProfileRow :=
  { profile_id := "S", name := "store", storename := some "Store",
    storenumber := some "0212345678", email := some "owner@example.com",
    role := "owner", customernumber := none }

/-- Concrete datastore used by the C5 witness. -/
def dbC5 : DB :=
  { profiles := [storeProfile], menuItems := [], orders := [],
    orderitems := [], nextOrderId := 0, nextOrderItemId := 0 }

/-- Concrete environment used by the C5 witness. -/
def envC5 : CreateEnv :=
  { user := some "U", orderInsertOk := true, itemInsertOk := true,
    hookUrl := none, fetchOutcome := FetchOutcome.fetchOk }

/-- Concrete submitted form used by the C5 witness. -/
def formC5 : CreateForm :=
  { orderItems := [{ id := "burger", name := "Burger", price := 8000,
                     quantity := 1 },
                   { id := "coke", name := "Coke", price := 2000,
                     quantity := 2 }],
    totalAmount := 12000, phoneNumber := "01012345678",
    autoOrder := false }

/-- Witness for C5 at a concrete submission. -/
theorem order_total_consistency_witness :
    (createAction envC5 formC5 "store" dbC5).result
        = CreateResult.successResult dbC5.nextOrderId ∧
    ∃ row,
      (createAction envC5 formC5 "store" dbC5).db.orders.find?
          (fun o => o.order_id == dbC5.nextOrderId) = some row ∧
      row.totalAmount
        = (((createAction envC5 formC5 "store" dbC5).db.orderitems.filter
              (fun r => r.orderId == dbC5.nextOrderId)).map
              (fun r => r.price * r.quantity)).sum :=
  order_total_consistency envC5 formC5 "store" "U" storeProfile dbC5
    rfl (by decide) (by decide) rfl rfl (by decide) (by decide) (by decide)

/-- The datastore component of saveOrder is independent of the menuItem
relation, which saveOrder never reads. -/
theorem saveOrder_menuItems_eq (a b : Bool) (items : List OrderItemInput)
    (ph : String) (t : Int) (pid : String) (db : DB)
    (m : List MenuItemRow) :
    saveOrder a b items ph t pid { db with menuItems := m }
      = ((saveOrder a b items ph t pid db).1,
         { (saveOrder a b items ph t pid db).2 with menuItems := m }) := by
  cases a <;> cases b <;> rfl

/-- The submission action on a datastore with a replaced menuItem
relation produces the same response and payloads, and the same datastore
except for that untouched relation. -/
theorem createAction_menuItems_eq (env : CreateEnv) (form : CreateForm)
    (nm : String) (db : DB) (m : List MenuItemRow) :
    createAction env form nm { db with menuItems := m }
      = { result := (createAction env form nm db).result,
          db := { (createAction env form nm db).db with menuItems := m },
          payloads := (createAction env form nm db).payloads } := by
  cases hue : env.user with
  | none => simp only [createAction, hue]
  | some uid =>
    simp only [createAction, hue]
    have hph : resolvePhoneNumber form uid { db with menuItems := m }
        = resolvePhoneNumber form uid db := rfl
    rw [hph]
    cases hpf : db.profiles.find? (fun p => p.name == nm) with
    | none => simp only []
    | some profile =>
      simp only []
      by_cases hpid : profile.profile_id = ""
      · simp only [if_pos hpid]
      · simp only [if_neg hpid]
        rw [saveOrder_menuItems_eq]
        cases hs : saveOrder env.orderInsertOk env.itemInsertOk
            form.orderItems (resolvePhoneNumber form uid db)
            form.totalAmount profile.profile_id db with
        | mk r db1 =>
          cases r with
          | error e => simp only []
          | ok oid =>
            cases env.hookUrl with
            | none => simp only []
            | some u => simp only []

/-- C9: the persisted orderitem prices and the order totalAmount come
solely from the client-submitted form data; the submission action never
reads the menuItem relation, so two datastore states that differ only in
the menuItem rows (in particular in live menu prices) yield the same
response, the same persisted order and orderitem rows, and the same
webhook payloads for the same submitted form. -/
theorem createAction_ignores_menu_prices (env : CreateEnv)
    (form : CreateForm) (nm : String) (db : DB)
    (m1 m2 : List MenuItemRow) :
    (createAction env form nm { db with menuItems := m1 }).result
        = (createAction env form nm { db with menuItems := m2 }).result ∧
    (createAction env form nm { db with menuItems := m1 }).db.orders
        = (createAction env form nm { db with menuItems := m2 }).db.orders ∧
    (createAction env form nm { db with menuItems := m1 }).db.orderitems
        = (createAction env form nm
            { db with menuItems := m2 }).db.orderitems ∧
    (createAction env form nm { db with menuItems := m1 }).payloads
        = (createAction env form nm { db with menuItems := m2 }).payloads := by
  rw [createAction_menuItems_eq env form nm db m1,
    createAction_menuItems_eq env form nm db m2]
  exact ⟨rfl, rfl, rfl, rfl⟩

/-- When no order row matches both filters of the accept update, the
update leaves the datastore unchanged and matches zero rows. -/
theorem updateAccept_no_match (db : DB) (oid : Nat) (a : String)
    (h : ∀ o ∈ db.orders, o.order_id = oid → o.profile_id ≠ a) :
    (updateAccept db oid a).1 = db ∧ (updateAccept db oid a).2 = 0 := by
  have hfix : ∀ o ∈ db.orders,
      (if (o.order_id == oid && o.profile_id == a) = true then
        { o with status := Status.ACCEPT } else o) = o := by
    intro o hm
    rw [if_neg]
    intro hc
    rw [Bool.and_eq_true, beq_iff_eq, beq_iff_eq] at hc
    exact h o hm hc.1 hc.2
  constructor
  · show ({ db with orders := db.orders.map (fun o =>
        if (o.order_id == oid && o.profile_id == a) = true then
          { o with status := Status.ACCEPT } else o) } : DB) = db
    rw [list_map_eq_self _ _ hfix]
  · show db.orders.countP (fun o =>
        o.order_id == oid && o.profile_id == a) = 0
    rw [List.countP_eq_zero]
    intro o hm hc
    rw [Bool.and_eq_true, beq_iff_eq, beq_iff_eq] at hc
    exact h o hm hc.1 hc.2

/-- C2: an accept invocation by the owner of store A against an order
that belongs to a different store matches zero rows in the status
update, leaves every order row (hence the re-read status) unchanged, and
completes with the normal redirect rather than a distinct authorization
error, provided the run is not aborted later by a webhook fetch
rejection. -/
theorem cross_tenant_accept_noop
    (env : AcceptEnv) (db : DB) (oid : Nat) (a : String)
    (h1 : env.user = some a)
    (h2 : env.updateOk = true)
    (h3 : ∃ o ∈ db.orders, o.order_id = oid)
    (h4 : ∀ o ∈ db.orders, o.order_id = oid → o.profile_id ≠ a)
    (h5 : env.hookUrl = none ∨ env.fetchOutcome ≠ FetchOutcome.fetchThrow) :
    (acceptAction env (some oid) db).changed = 0 ∧
    (acceptAction env (some oid) db).db.orders = db.orders ∧
    (acceptAction env (some oid) db).result
      = AcceptResult.redirectOrders := by
  obtain ⟨hupd1, hupd2⟩ := updateAccept_no_match db oid a h4
  unfold acceptAction
  simp only [h1, h2, Bool.not_true]
  rw [if_neg (by decide)]
  cases hurl : env.hookUrl with
  | none =>
    simp only []
    exact ⟨hupd2, by rw [hupd1], trivial⟩
  | some u =>
    cases hfo : env.fetchOutcome with
    | fetchThrow =>
      exfalso
      rcases h5 with h5 | h5
      · rw [hurl] at h5; cases h5
      · exact h5 hfo
    | fetchOk =>
      simp only []
      exact ⟨hupd2, by rw [hupd1], trivial⟩
    | fetchHttpError =>
      simp only []
      exact ⟨hupd2, by rw [hupd1], trivial⟩

/-- Concrete datastore for the cross-tenant witnesses: one order that
belongs to store B. -/
def dbCross : DB :=
  { profiles := [storeProfile], menuItems := [],
    orders := [{ order_id := 0, phoneNumber := "01011112222",
                 totalAmount := 12000, status := Status.PENDING,
                 profile_id := "B" }],
    orderitems := [{ id := 0, orderId := 0, menuItemId := "burger",
                     quantity := 1, price := 12000 }],
    nextOrderId := 1, nextOrderItemId := 1 }

/-- Concrete environment for the C2 witness: caller A, no webhook URL
configured. -/
def envC2 : AcceptEnv :=
  { user := some "A", userEmail := none, updateOk := true,
    hookUrl := none, fetchOutcome := FetchOutcome.fetchOk }

/-- Witness for C2 at a concrete cross-tenant accept. -/
theorem cross_tenant_accept_noop_witness :
    (acceptAction envC2 (some 0) dbCross).changed = 0 ∧
    (acceptAction envC2 (some 0) dbCross).db.orders = dbCross.orders ∧
    (acceptAction envC2 (some 0) dbCross).result
      = AcceptResult.redirectOrders :=
  cross_tenant_accept_noop envC2 dbCross 0 "A" rfl rfl
    (by decide) (by decide) (Or.inl rfl)

/-- Shape of a completed accept run: authenticated caller, update
accepted by the datastore, webhook URL configured, fetch ok. -/
theorem acceptAction_ok_shape (env : AcceptEnv) (oid : Nat)
    (a u : String) (d : DB)
    (h1 : env.user = some a) (h2 : env.updateOk = true)
    (h3 : env.hookUrl = some u)
    (h4 : env.fetchOutcome = FetchOutcome.fetchOk) :
    (acceptAction env (some oid) d).result
        = AcceptResult.redirectOrders ∧
    (acceptAction env (some oid) d).db = (updateAccept d oid a).1 ∧
    (acceptAction env (some oid) d).changed = (updateAccept d oid a).2 ∧
    (acceptAction env (some oid) d).payloads.length = 1 := by
  unfold acceptAction
  simp only [h1, h2, Bool.not_true, h3, h4]
  rw [if_neg (by decide)]
  exact ⟨rfl, rfl, rfl, rfl⟩

/-- Applying the accept update function twice is the same as applying
it once. -/
theorem acceptUpdFun_idem (oid : Nat) (a : String) (y : OrderRow) :
    (fun o => if (o.order_id == oid && o.profile_id == a) = true then
      { o with status := Status.ACCEPT } else o)
    ((fun o => if (o.order_id == oid && o.profile_id == a) = true then
      { o with status := Status.ACCEPT } else o) y)
    = (fun o => if (o.order_id == oid && o.profile_id == a) = true then
      { o with status := Status.ACCEPT } else o) y := by
  by_cases hc : (y.order_id == oid && y.profile_id == a) = true
  · simp [hc]
  · simp [hc]

/-- Running the accept update a second time leaves the datastore of the
first run unchanged. -/
theorem updateAccept_idem (db : DB) (oid : Nat) (a : String) :
    (updateAccept (updateAccept db oid a).1 oid a).1
      = (updateAccept db oid a).1 := by
  have hl : (db.orders.map (fun o =>
      if (o.order_id == oid && o.profile_id == a) = true then
        { o with status := Status.ACCEPT } else o)).map (fun o =>
      if (o.order_id == oid && o.profile_id == a) = true then
        { o with status := Status.ACCEPT } else o)
      = db.orders.map (fun o =>
      if (o.order_id == oid && o.profile_id == a) = true then
        { o with status := Status.ACCEPT } else o) := by
    rw [List.map_map]
    exact List.map_congr_left (fun y _ => acceptUpdFun_idem oid a y)
  unfold updateAccept
  simp only []
  rw [hl]

/-- After an accept update by the owner of the unique row carrying the
order id, every row with that order id has status ACCEPT. -/
theorem updateAccept_sets_owned (db : DB) (oid : Nat) (a : String)
    (o : OrderRow)
    (h6 : o.order_id = oid) (h7 : o.profile_id = a)
    (h8 : ∀ x ∈ db.orders, x.order_id = oid → x = o) :
    ∀ x ∈ (updateAccept db oid a).1.orders,
      x.order_id = oid → x.status = Status.ACCEPT := by
  intro x hx hxid
  have hx2 : x ∈ db.orders.map (fun o0 =>
      if (o0.order_id == oid && o0.profile_id == a) = true then
        { o0 with status := Status.ACCEPT } else o0) := hx
  rw [List.mem_map] at hx2
  obtain ⟨y, hy, rfl⟩ := hx2
  by_cases hc : (y.order_id == oid && y.profile_id == a) = true
  · rw [if_pos hc]
  · rw [if_neg hc] at hxid ⊢
    have hyo : y = o := h8 y hy hxid
    exfalso
    apply hc
    rw [Bool.and_eq_true, beq_iff_eq, beq_iff_eq]
    exact ⟨hxid, by rw [hyo]; exact h7⟩

/-- C6: calling accept twice on the same order owned by the caller is
idempotent with respect to order state: the second call completes with
the normal redirect, leaves the datastore exactly as after the first
call (totalAmount, items and every other row unchanged), every row with
that order id stays at ACCEPT, and each of the two calls performs its
own webhook send (the second send is permitted, not suppressed). -/
theorem accept_idempotent
    (env : AcceptEnv) (db : DB) (oid : Nat) (a u : String) (o : OrderRow)
    (h1 : env.user = some a) (h2 : env.updateOk = true)
    (h3 : env.hookUrl = some u)
    (h4 : env.fetchOutcome = FetchOutcome.fetchOk)
    (h5 : o ∈ db.orders) (h6 : o.order_id = oid) (h7 : o.profile_id = a)
    (h8 : ∀ x ∈ db.orders, x.order_id = oid → x = o) :
    (acceptAction env (some oid)
        (acceptAction env (some oid) db).db).result
      = AcceptResult.redirectOrders ∧
    (acceptAction env (some oid) (acceptAction env (some oid) db).db).db
      = (acceptAction env (some oid) db).db ∧
    (∀ x ∈ (acceptAction env (some oid)
        (acceptAction env (some oid) db).db).db.orders,
      x.order_id = oid → x.status = Status.ACCEPT) ∧
    (acceptAction env (some oid) db).payloads.length = 1 ∧
    (acceptAction env (some oid)
        (acceptAction env (some oid) db).db).payloads.length = 1 := by
  obtain ⟨hres1, hdb1, hch1, hpay1⟩ :=
    acceptAction_ok_shape env oid a u db h1 h2 h3 h4
  obtain ⟨hres2, hdb2, hch2, hpay2⟩ :=
    acceptAction_ok_shape env oid a u
      (acceptAction env (some oid) db).db h1 h2 h3 h4
  refine ⟨hres2, ?_, ?_, hpay1, hpay2⟩
  · rw [hdb2, hdb1, updateAccept_idem]
  · rw [hdb2, hdb1, updateAccept_idem]
    exact updateAccept_sets_owned db oid a o h6 h7 h8

/-- Concrete datastore for the idempotent-accept witness: one order
owned by store S. -/
def dbC6 : DB :=
  { profiles := [storeProfile], menuItems := [],
    orders := [{ order_id := 0, phoneNumber := "01011112222",
                 totalAmount := 12000, status := Status.PENDING,
                 profile_id := "S" }],
    orderitems := [{ id := 0, orderId := 0, menuItemId := "burger",
                     quantity := 1, price := 12000 }],
    nextOrderId := 1, nextOrderItemId := 1 }

/-- Concrete environment for the idempotent-accept witness. -/
def envC6 : AcceptEnv :=
  { user := some "S", userEmail := none, updateOk := true,
    hookUrl := some "https://hook.example/accept",
    fetchOutcome := FetchOutcome.fetchOk }

/-- Witness for C6 at a concrete double accept. -/
theorem accept_idempotent_witness :
    (acceptAction envC6 (some 0)
        (acceptAction envC6 (some 0) dbC6).db).result
      = AcceptResult.redirectOrders ∧
    (acceptAction envC6 (some 0) (acceptAction envC6 (some 0) dbC6).db).db
      = (acceptAction envC6 (some 0) dbC6).db ∧
    (∀ x ∈ (acceptAction envC6 (some 0)
        (acceptAction envC6 (some 0) dbC6).db).db.orders,
      x.order_id = 0 → x.status = Status.ACCEPT) ∧
    (acceptAction envC6 (some 0) dbC6).payloads.length = 1 ∧
    (acceptAction envC6 (some 0)
        (acceptAction envC6 (some 0) dbC6).db).payloads.length = 1 :=
  accept_idempotent envC6 dbC6 0 "S" "https://hook.example/accept"
    { order_id := 0, phoneNumber := "01011112222", totalAmount := 12000,
      status := Status.PENDING, profile_id := "S" }
    rfl rfl rfl rfl (by decide) rfl rfl (by decide)

/-- C10: with a webhook URL configured, a cross-tenant accept (caller A,
order owned by another store) changes zero rows and no order state, yet
still fires exactly one order-accepted webhook whose payload is
assembled from re-reads filtered by order id alone: it reports status
ACCEPT and carries the other store's order phone number, total amount,
store id and orderitem lines. -/
theorem accept_webhook_fires_cross_tenant
    (env : AcceptEnv) (db : DB) (oid : Nat) (a u : String) (o : OrderRow)
    (h1 : env.user = some a) (h2 : env.updateOk = true)
    (h3 : env.hookUrl = some u)
    (h4 : env.fetchOutcome = FetchOutcome.fetchOk)
    (h5 : o ∈ db.orders) (h6 : o.order_id = oid)
    (h7 : o.profile_id ≠ a)
    (h8 : ∀ x ∈ db.orders, x.order_id = oid → x = o) :
    (acceptAction env (some oid) db).changed = 0 ∧
    (acceptAction env (some oid) db).db.orders = db.orders ∧
    (acceptAction env (some oid) db).payloads.length = 1 ∧
    ∀ p ∈ (acceptAction env (some oid) db).payloads,
      p.status = Status.ACCEPT ∧
      p.orderPhoneNumber = some o.phoneNumber ∧
      p.orderTotalAmount = some o.totalAmount ∧
      p.storeId = o.profile_id ∧
      p.items = acceptItems db oid := by
  have hcross : ∀ x ∈ db.orders, x.order_id = oid → x.profile_id ≠ a := by
    intro x hx hid
    rw [h8 x hx hid]
    exact h7
  obtain ⟨hupd1, hupd2⟩ := updateAccept_no_match db oid a hcross
  have hfind : db.orders.find? (fun x => x.order_id == oid) = some o :=
    list_find?_unique _ _ o h5 (beq_iff_eq.mpr h6)
      (fun x hx hxp => h8 x hx (beq_iff_eq.mp hxp))
  unfold acceptAction
  simp only [h1, h2, Bool.not_true, h3, h4]
  rw [if_neg (by decide)]
  rw [hupd1, hfind]
  refine ⟨hupd2, rfl, rfl, ?_⟩
  intro p hp
  rw [List.mem_singleton] at hp
  subst hp
  exact ⟨rfl, rfl, rfl, rfl, rfl⟩

/-- Concrete environment for the C10 witness: caller A with a
configured webhook URL. -/
def envC10 : AcceptEnv :=
  { user := some "A", userEmail := none, updateOk := true,
    hookUrl := some "https://hook.example/accept",
    fetchOutcome := FetchOutcome.fetchOk }

/-- Witness for C10 at a concrete cross-tenant accept. -/
theorem accept_webhook_fires_cross_tenant_witness :
    (acceptAction envC10 (some 0) dbCross).changed = 0 ∧
    (acceptAction envC10 (some 0) dbCross).db.orders = dbCross.orders ∧
    (acceptAction envC10 (some 0) dbCross).payloads.length = 1 ∧
    ∀ p ∈ (acceptAction envC10 (some 0) dbCross).payloads,
      p.status = Status.ACCEPT ∧
      p.orderPhoneNumber = some "01011112222" ∧
      p.orderTotalAmount = some (12000 : Int) ∧
      p.storeId = "B" ∧
      p.items = acceptItems dbCross 0 :=
  accept_webhook_fires_cross_tenant envC10 dbCross 0 "A"
    "https://hook.example/accept"
    { order_id := 0, phoneNumber := "01011112222", totalAmount := 12000,
      status := Status.PENDING, profile_id := "B" }
    rfl rfl rfl rfl (by decide) rfl (by decide) (by decide)

/-- Concrete datastore for the C3 counterexample: one PENDING order
owned by store S. -/
def dbC3 : DB :=
  { profiles := [storeProfile], menuItems := [],
    orders := [{ order_id := 0, phoneNumber := "01011112222",
                 totalAmount := 12000, status := Status.PENDING,
                 profile_id := "S" }],
    orderitems := [{ id := 0, orderId := 0, menuItemId := "burger",
                     quantity := 1, price := 12000 }],
    nextOrderId := 1, nextOrderItemId := 1 }

/-- Concrete environment for the C3 counterexample: the owner accepts
the order, the webhook URL is configured, and the webhook fetch
rejects. -/
def envC3 : AcceptEnv :=
  { user := some "S", userEmail := none, updateOk := true,
    hookUrl := some "https://hook.example/accept",
    fetchOutcome := FetchOutcome.fetchThrow }

/-- Counterexample to C3: an accept invocation whose status update
succeeds (it matches one row and the row becomes ACCEPT), yet whose
webhook fetch rejection is NOT swallowed: the accept action ends with
the propagated fetch error instead of completing with the redirect. -/
theorem accept_webhook_swallow_counterexample :
    (acceptAction envC3 (some 0) dbC3).changed = 1 ∧
    (∀ x ∈ (acceptAction envC3 (some 0) dbC3).db.orders,
      x.status = Status.ACCEPT) ∧
    (acceptAction envC3 (some 0) dbC3).result
      = AcceptResult.thrownFetchError ∧
    (acceptAction envC3 (some 0) dbC3).result
      ≠ AcceptResult.redirectOrders := by
  refine ⟨by decide, by decide, by decide, by decide⟩

/-- C3 (amended): in the accept action the webhook fetch is not wrapped
in try/catch, unlike order creation.  When the status update succeeds:
an absent webhook URL skips the send and the action completes with the
redirect; a non-ok HTTP response is ignored and the action completes
with the redirect after exactly one send; but a fetch rejection
propagates out of the action (no redirect).  In every case at most one
send is attempted (never retried).  Order creation, by contrast, wraps
its webhook fetch in try/catch, so its outcome never influences the
submission response, state or payloads. -/
theorem accept_webhook_amended
    (env : AcceptEnv) (db : DB) (oid : Nat) (a u : String)
    (h1 : env.user = some a) (h2 : env.updateOk = true) :
    (env.hookUrl = none →
      (acceptAction env (some oid) db).result
          = AcceptResult.redirectOrders ∧
      (acceptAction env (some oid) db).payloads = []) ∧
    (env.hookUrl = some u →
      env.fetchOutcome = FetchOutcome.fetchHttpError →
      (acceptAction env (some oid) db).result
          = AcceptResult.redirectOrders ∧
      (acceptAction env (some oid) db).payloads.length = 1) ∧
    (env.hookUrl = some u → env.fetchOutcome = FetchOutcome.fetchThrow →
      (acceptAction env (some oid) db).result
          = AcceptResult.thrownFetchError) ∧
    (acceptAction env (some oid) db).payloads.length ≤ 1 ∧
    (∀ cenv : CreateEnv, ∀ cform : CreateForm, ∀ cnm : String,
      ∀ cdb : DB,
      createAction cenv cform cnm cdb
        = createAction { cenv with fetchOutcome := FetchOutcome.fetchOk }
            cform cnm cdb) := by
  have hcreate : ∀ cenv : CreateEnv, ∀ cform : CreateForm,
      ∀ cnm : String, ∀ cdb : DB,
      createAction cenv cform cnm cdb
        = createAction { cenv with fetchOutcome := FetchOutcome.fetchOk }
            cform cnm cdb := by
    intro cenv cform cnm cdb
    cases cenv
    rfl
  unfold acceptAction
  simp only [h1, h2, Bool.not_true]
  rw [if_neg (by decide)]
  cases hurl : env.hookUrl with
  | none =>
    refine ⟨?_, ?_, ?_, ?_, hcreate⟩
    · intro _
      exact ⟨rfl, rfl⟩
    · intro hcontra _
      simp at hcontra
    · intro hcontra _
      simp at hcontra
    · exact Nat.zero_le 1
  | some u2 =>
    cases hfo : env.fetchOutcome with
    | fetchOk =>
      refine ⟨?_, ?_, ?_, ?_, hcreate⟩
      · intro hcontra
        simp at hcontra
      · intro _ hcontra
        exact absurd hcontra (by decide)
      · intro _ hcontra
        exact absurd hcontra (by decide)
      · exact Nat.le_refl 1
    | fetchHttpError =>
      refine ⟨?_, ?_, ?_, ?_, hcreate⟩
      · intro hcontra
        simp at hcontra
      · intro _ _
        exact ⟨rfl, rfl⟩
      · intro _ hcontra
        exact absurd hcontra (by decide)
      · exact Nat.le_refl 1
    | fetchThrow =>
      refine ⟨?_, ?_, ?_, ?_, hcreate⟩
      · intro hcontra
        simp at hcontra
      · intro _ hcontra
        exact absurd hcontra (by decide)
      · intro _ _
        rfl
      · exact Nat.le_refl 1

/-- Witness for the amended C3 at a concrete accept run. -/
theorem accept_webhook_amended_witness :
    (envC3.hookUrl = none →
      (acceptAction envC3 (some 0) dbC3).result
          = AcceptResult.redirectOrders ∧
      (acceptAction envC3 (some 0) dbC3).payloads = []) ∧
    (envC3.hookUrl = some "https://hook.example/accept" →
      envC3.fetchOutcome = FetchOutcome.fetchHttpError →
      (acceptAction envC3 (some 0) dbC3).result
          = AcceptResult.redirectOrders ∧
      (acceptAction envC3 (some 0) dbC3).payloads.length = 1) ∧
    (envC3.hookUrl = some "https://hook.example/accept" →
      envC3.fetchOutcome = FetchOutcome.fetchThrow →
      (acceptAction envC3 (some 0) dbC3).result
          = AcceptResult.thrownFetchError) ∧
    (acceptAction envC3 (some 0) dbC3).payloads.length ≤ 1 ∧
    (∀ cenv : CreateEnv, ∀ cform : CreateForm, ∀ cnm : String,
      ∀ cdb : DB,
      createAction cenv cform cnm cdb
        = createAction { cenv with fetchOutcome := FetchOutcome.fetchOk }
            cform cnm cdb) :=
  accept_webhook_amended envC3 dbC3 0 "S" "https://hook.example/accept"
    rfl rfl

/-- The datastore after the submission action is either unchanged or
the datastore produced by its saveOrder call. -/
theorem createAction_db_cases (env : CreateEnv) (form : CreateForm)
    (nm : String) (db : DB) :
    (createAction env form nm db).db = db ∨
    ∃ ph pid, (createAction env form nm db).db
      = (saveOrder env.orderInsertOk env.itemInsertOk form.orderItems
          ph form.totalAmount pid db).2 := by
  cases hue : env.user with
  | none =>
    left
    simp only [createAction, hue]
  | some uid =>
    unfold createAction
    simp only [hue]
    cases hpf : db.profiles.find? (fun p => p.name == nm) with
    | none =>
      left
      simp only []
    | some profile =>
      simp only []
      by_cases hpid : profile.profile_id = ""
      · left
        simp only [if_pos hpid]
      · simp only [if_neg hpid]
        right
        refine ⟨resolvePhoneNumber form uid db, profile.profile_id, ?_⟩
        cases hs : saveOrder env.orderInsertOk env.itemInsertOk
            form.orderItems (resolvePhoneNumber form uid db)
            form.totalAmount profile.profile_id db with
        | mk r db1 =>
          cases r with
          | error e => rfl
          | ok oid => cases env.hookUrl <;> rfl

/-- The datastore after the accept action is either unchanged or the
datastore produced by its status update. -/
theorem acceptAction_db_cases (env : AcceptEnv) (oidf : Option Nat)
    (db : DB) :
    (acceptAction env oidf db).db = db ∨
    ∃ oid uid, (acceptAction env oidf db).db
      = (updateAccept db oid uid).1 := by
  cases oidf with
  | none => left; rfl
  | some oid =>
    cases hue : env.user with
    | none =>
      left
      simp only [acceptAction, hue]
    | some uid =>
      unfold acceptAction
      simp only [hue]
      by_cases hok : env.updateOk = true
      · simp only [hok, Bool.not_true]
        rw [if_neg (by decide)]
        right
        refine ⟨oid, uid, ?_⟩
        cases env.hookUrl with
        | none => rfl
        | some u => cases env.fetchOutcome <;> rfl
      · left
        have hok2 : env.updateOk = false := by
          cases hu2 : env.updateOk
          · rfl
          · exact absurd hu2 hok
        simp only [hok2, Bool.not_false]
        rw [if_pos trivial]

/-- saveOrder preserves the two C4 invariants: rows already at ACCEPT
for a given live id stay at ACCEPT (the new row gets a fresh id), and no
written status is CANCEL (the new row is PENDING). -/
theorem saveOrder_preserves_inv (a b : Bool)
    (items : List OrderItemInput) (ph : String) (t : Int) (pid : String)
    (db : DB) (qid : Nat)
    (h1 : acceptOnlyStatus qid db) (h2 : noCancel db) :
    acceptOnlyStatus qid (saveOrder a b items ph t pid db).2 ∧
    noCancel (saveOrder a b items ph t pid db).2 := by
  obtain ⟨hacc, hlt⟩ := h1
  cases a with
  | false => exact ⟨⟨hacc, hlt⟩, h2⟩
  | true =>
    have horders : ∀ o ∈ db.orders ++
        [({ order_id := db.nextOrderId, phoneNumber := ph,
            totalAmount := t, status := Status.PENDING,
            profile_id := pid } : OrderRow)],
        (o.order_id = qid → o.status = Status.ACCEPT) ∧
          o.status ≠ Status.CANCEL := by
      intro o hm
      rcases List.mem_append.mp hm with hm | hm
      · exact ⟨hacc o hm, h2 o hm⟩
      · rcases List.mem_singleton.mp hm with rfl
        constructor
        · intro hid
          exfalso
          have hid2 : db.nextOrderId = qid := hid
          omega
        · intro hcon
          exact Status.noConfusion hcon
    cases b with
    | false =>
      exact ⟨⟨fun o hm hid => (horders o hm).1 hid,
        (show qid < db.nextOrderId + 1 by omega)⟩,
        fun o hm => (horders o hm).2⟩
    | true =>
      exact ⟨⟨fun o hm hid => (horders o hm).1 hid,
        (show qid < db.nextOrderId + 1 by omega)⟩,
        fun o hm => (horders o hm).2⟩

/-- The accept status update preserves the two C4 invariants: it only
ever writes ACCEPT, and never removes a row or changes an id. -/
theorem updateAccept_preserves_inv (db : DB) (oid : Nat) (a : String)
    (qid : Nat)
    (h1 : acceptOnlyStatus qid db) (h2 : noCancel db) :
    acceptOnlyStatus qid (updateAccept db oid a).1 ∧
    noCancel (updateAccept db oid a).1 := by
  obtain ⟨hacc, hlt⟩ := h1
  refine ⟨⟨?_, hlt⟩, ?_⟩
  · intro x hx hid
    have hx2 : x ∈ db.orders.map (fun o =>
        if (o.order_id == oid && o.profile_id == a) = true then
          { o with status := Status.ACCEPT } else o) := hx
    rw [List.mem_map] at hx2
    obtain ⟨y, hy, rfl⟩ := hx2
    by_cases hc : (y.order_id == oid && y.profile_id == a) = true
    · rw [if_pos hc]
    · rw [if_neg hc] at hid ⊢
      exact hacc y hy hid
  · intro x hx
    have hx2 : x ∈ db.orders.map (fun o =>
        if (o.order_id == oid && o.profile_id == a) = true then
          { o with status := Status.ACCEPT } else o) := hx
    rw [List.mem_map] at hx2
    obtain ⟨y, hy, rfl⟩ := hx2
    by_cases hc : (y.order_id == oid && y.profile_id == a) = true
    · rw [if_pos hc]
      intro hcon
      exact Status.noConfusion hcon
    · rw [if_neg hc]
      exact h2 y hy

/-- One system operation preserves the two C4 invariants. -/
theorem sysStep_preserves_inv (op : SysOp) (db : DB) (qid : Nat)
    (h1 : acceptOnlyStatus qid db) (h2 : noCancel db) :
    acceptOnlyStatus qid (sysStep op db) ∧ noCancel (sysStep op db) := by
  cases op with
  | create env form nm =>
    show acceptOnlyStatus qid (createAction env form nm db).db ∧
      noCancel (createAction env form nm db).db
    rcases createAction_db_cases env form nm db with hdb | ⟨ph, pid, hdb⟩
    · rw [hdb]
      exact ⟨⟨h1.1, h1.2⟩, h2⟩
    · rw [hdb]
      exact saveOrder_preserves_inv _ _ _ _ _ _ _ _ h1 h2
  | accept env oidf =>
    show acceptOnlyStatus qid (acceptAction env oidf db).db ∧
      noCancel (acceptAction env oidf db).db
    rcases acceptAction_db_cases env oidf db with hdb | ⟨oid, uid, hdb⟩
    · rw [hdb]
      exact ⟨⟨h1.1, h1.2⟩, h2⟩
    · rw [hdb]
      exact updateAccept_preserves_inv _ _ _ _ h1 h2

/-- C4: once an order reaches status ACCEPT it never transitions again.
Over every sequence of order-table-writing operations of this system
(order submission and accept, the only code paths that write the order
or orderitem tables), every row carrying an accepted order id stays at
ACCEPT (no reversion to PENDING), and no operation ever writes CANCEL:
the only statuses written are PENDING at creation and ACCEPT by the
accept action. -/
theorem accept_is_terminal (ops : List SysOp) (db : DB) (qid : Nat)
    (h1 : acceptOnlyStatus qid db) (h2 : noCancel db) :
    acceptOnlyStatus qid (sysRun ops db) ∧ noCancel (sysRun ops db) := by
  induction ops generalizing db with
  | nil => exact ⟨h1, h2⟩
  | cons op rest ih =>
    have hstep := sysStep_preserves_inv op db qid h1 h2
    exact ih (sysStep op db) hstep.1 hstep.2

/-- Concrete datastore for the C4 witness: one already accepted
order. -/
def dbC4 : DB :=
  { profiles := [storeProfile], menuItems := [],
    orders := [{ order_id := 0, phoneNumber := "01011112222",
                 totalAmount := 12000, status := Status.ACCEPT,
                 profile_id := "S" }],
    orderitems := [], nextOrderId := 1, nextOrderItemId := 0 }

/-- Witness for C4 at a concrete operation sequence (a repeated accept
followed by a fresh order submission). -/
theorem accept_is_terminal_witness :
    acceptOnlyStatus 0 (sysRun [SysOp.accept envC6 (some 0),
      SysOp.create envC5 formC5 "store"] dbC4) ∧
    noCancel (sysRun [SysOp.accept envC6 (some 0),
      SysOp.create envC5 formC5 "store"] dbC4) :=
  accept_is_terminal [SysOp.accept envC6 (some 0),
      SysOp.create envC5 formC5 "store"] dbC4 0
    ⟨by decide, by decide⟩
    (show ∀ o ∈ dbC4.orders, o.status ≠ Status.CANCEL by decide)

/-- C8: in the phone-capture recovery flow, after the phone number is
saved: with no staged draft the flow navigates home without submitting
anything; with a staged draft the draft is submitted exactly once with
the autoOrder flag set; on submission success the staged draft is
deleted in the same step that navigates to the order-success view; and
on any submission failure the staged draft is kept untouched, so a
reload can retry the same draft. -/
theorem phone_recovery_flow
    (sub : AutoSubmitRequest → SubmitOutcome) (po : PendingOrder)
    (ph : String) (oid : Nat) :
    phoneSavedFlow none ph sub
      = { storage := none, nav := PhoneNav.home, submitted := none } ∧
    ((phoneSavedFlow (some po) ph sub).submitted
        = some (mkAutoSubmitRequest po ph) ∧
      (mkAutoSubmitRequest po ph).autoOrder = true) ∧
    (sub (mkAutoSubmitRequest po ph) = SubmitOutcome.submitSuccess oid →
      phoneSavedFlow (some po) ph sub
        = { storage := none, nav := PhoneNav.orderSuccessPage oid,
            submitted := some (mkAutoSubmitRequest po ph) }) ∧
    ((∀ r, sub (mkAutoSubmitRequest po ph)
        ≠ SubmitOutcome.submitSuccess r) →
      (phoneSavedFlow (some po) ph sub).storage = some po ∧
      (phoneSavedFlow (some po) ph sub).nav = PhoneNav.stay) := by
  have hsome : phoneSavedFlow (some po) ph sub
      = match sub (mkAutoSubmitRequest po ph) with
        | SubmitOutcome.submitSuccess orderId =>
          { storage := none, nav := PhoneNav.orderSuccessPage orderId,
            submitted := some (mkAutoSubmitRequest po ph) }
        | _ => { storage := some po, nav := PhoneNav.stay,
                 submitted := some (mkAutoSubmitRequest po ph) } := rfl
  refine ⟨rfl, ?_, ?_, ?_⟩
  · rw [hsome]
    cases hs : sub (mkAutoSubmitRequest po ph) with
    | submitSuccess r => exact ⟨rfl, rfl⟩
    | submitHttpFail => exact ⟨rfl, rfl⟩
    | submitResultFail => exact ⟨rfl, rfl⟩
    | submitFetchThrow => exact ⟨rfl, rfl⟩
  · intro hs
    rw [hsome, hs]
  · intro hs
    rw [hsome]
    cases hsub : sub (mkAutoSubmitRequest po ph) with
    | submitSuccess r => exact absurd hsub (hs r)
    | submitHttpFail => exact ⟨rfl, rfl⟩
    | submitResultFail => exact ⟨rfl, rfl⟩
    | submitFetchThrow => exact ⟨rfl, rfl⟩

/-- Concrete staged draft for the C8 witness. -/
def poC8 : PendingOrder :=
  { orderItems := [{ id := "burger", name := "Burger", price := 8000,
                     quantity := 1 }],
    totalAmount := 8000, storeName := "store",
    phoneNumber := some "01012345678" }

/-- Witness for C8 at a concrete draft and a submission stub that
succeeds with order id 7. -/
theorem phone_recovery_flow_witness :
    phoneSavedFlow none "" (fun _ => SubmitOutcome.submitSuccess 7)
      = { storage := none, nav := PhoneNav.home, submitted := none } ∧
    ((phoneSavedFlow (some poC8) ""
        (fun _ => SubmitOutcome.submitSuccess 7)).submitted
        = some (mkAutoSubmitRequest poC8 "") ∧
      (mkAutoSubmitRequest poC8 "").autoOrder = true) ∧
    ((fun _ => SubmitOutcome.submitSuccess 7)
        (mkAutoSubmitRequest poC8 "")
        = SubmitOutcome.submitSuccess 7 →
      phoneSavedFlow (some poC8) ""
          (fun _ => SubmitOutcome.submitSuccess 7)
        = { storage := none, nav := PhoneNav.orderSuccessPage 7,
            submitted := some (mkAutoSubmitRequest poC8 "") }) ∧
    ((∀ r, (fun _ => SubmitOutcome.submitSuccess 7)
        (mkAutoSubmitRequest poC8 "")
        ≠ SubmitOutcome.submitSuccess r) →
      (phoneSavedFlow (some poC8) ""
          (fun _ => SubmitOutcome.submitSuccess 7)).storage = some poC8 ∧
      (phoneSavedFlow (some poC8) ""
          (fun _ => SubmitOutcome.submitSuccess 7)).nav = PhoneNav.stay) :=
  phone_recovery_flow (fun _ => SubmitOutcome.submitSuccess 7) poC8 "" 7
